import Mathlib

/-!
Verification development for the naisd deployment orchestrator.

Strings are embedded as lists of Unicode code points (`List Nat`), so
character-level facts (case mapping, alphanumeric tests) are decidable
arithmetic.  Go maps are embedded as association lists in iteration order;
fallible Go functions returning `(T, error)` are embedded as `Except`;
Go panics are embedded as `Option.none`.  External collaborators (HTTP
clients, the Kubernetes API, external parsers) are passed as explicit
function parameters (oracles).
-/

set_option maxHeartbeats 1000000
set_option maxRecDepth 10000

/-- Strings as lists of Unicode code points. -/
abbrev Str := List Nat

/-- Code-point list of a Lean string literal, used to write concrete inputs. -/
def str (s : String) : Str := s.data.map Char.toNat

/-- ASCII alphanumeric test on a code point (0-9, A-Z, a-z). -/
def isAlnumCode (c : Nat) : Bool :=
  (decide (48 ≤ c) && decide (c ≤ 57)) ||
  (decide (65 ≤ c) && decide (c ≤ 90)) ||
  (decide (97 ≤ c) && decide (c ≤ 122))

/-- ASCII upper-casing of a code point. -/
def toUpperCode (c : Nat) : Nat :=
  if 97 ≤ c ∧ c ≤ 122 then c - 32 else c

/-- ASCII lower-casing of a code point. -/
def toLowerCode (c : Nat) : Nat :=
  if 65 ≤ c ∧ c ≤ 90 then c + 32 else c

/-- Membership in the environment-variable character class `[A-Z0-9_]`. -/
def isEnvClassCode (c : Nat) : Bool :=
  (decide (48 ≤ c) && decide (c ≤ 57)) ||
  (decide (65 ≤ c) && decide (c ≤ 90)) ||
  decide (c = 95)

/-- State of the sanitizer scan: before the first alphanumeric character,
inside an alphanumeric run, or after a non-alphanumeric run that follows
emitted output (a single underscore is pending). -/
inductive SanState where
  | notStarted
  | inWord
  | pendingSep
deriving DecidableEq

/-- Modelled from the spec: the scan underlying `sanitize`, which is not
present under `src/` (only its tests are).  The spec defines `sanitize` as:
uppercase, non-alphanumeric runs (including `.`, `-`, `:`) collapsed to a
single underscore, leading and trailing underscores trimmed.  The scan
realises exactly that: an underscore is emitted only when an alphanumeric
character arrives after a non-alphanumeric run that follows some emitted
word, so separator runs collapse and no leading or trailing underscore
ever appears. -/
def sanCore : Str → SanState → Str
  | [], _ => []
  | c :: rest, st =>
    if isAlnumCode c then
      match st with
      | .pendingSep => 95 :: toUpperCode c :: sanCore rest .inWord
      | _ => toUpperCode c :: sanCore rest .inWord
    else
      match st with
      | .notStarted => sanCore rest .notStarted
      | _ => sanCore rest .pendingSep

/-- Modelled from the spec: `sanitize` of the Naming & Sanitization
component (absent from `src/`): uppercase, non-alphanumeric runs collapsed
to a single underscore, leading/trailing underscores trimmed. -/
def sanitize (s : Str) : Str := sanCore s .notStarted

example : sanitize (str "dots.are.not.allowed_key") = str "DOTS_ARE_NOT_ALLOWED_KEY" := by decide
example : sanitize (str "colon:are:not:allowed_secretkey") = str "COLON_ARE_NOT_ALLOWED_SECRETKEY" := by decide
example : sanitize (str "srvapp_password") = str "SRVAPP_PASSWORD" := by decide
example : sanitize (str ".") = str "" := by decide
example : sanitize (str "_a_") = str "A" := by decide
example : sanitize (str "a..b") = str "A_B" := by decide

/-- No two adjacent underscores occur in the string. -/
def noAdjUnd : Str → Bool
  | [] => true
  | [_] => true
  | a :: b :: rest => (!(decide (a = 95) && decide (b = 95))) && noAdjUnd (b :: rest)

/-- The last character, if any, is not an underscore. -/
def lastNotUnd : Str → Bool
  | [] => true
  | [a] => decide (a ≠ 95)
  | _ :: b :: rest => lastNotUnd (b :: rest)

theorem isAlnum_toUpper_envClass {c : Nat} (h : isAlnumCode c = true) :
    isEnvClassCode (toUpperCode c) = true := by
  simp [isAlnumCode] at h
  simp [isEnvClassCode, toUpperCode]
  split <;> omega

theorem toUpperCode_ne_und {c : Nat} (h : isAlnumCode c = true) : toUpperCode c ≠ 95 := by
  simp [isAlnumCode] at h
  simp [toUpperCode]
  split <;> omega

theorem envClass_not_und_alnum {c : Nat} (h1 : isEnvClassCode c = true) (h2 : ¬(c = 95)) :
    isAlnumCode c = true ∧ toUpperCode c = c := by
  simp [isEnvClassCode] at h1
  simp [isAlnumCode, toUpperCode]
  constructor
  · omega
  · omega

theorem noAdjUnd_cons {x : Nat} {l : Str} (hx : ¬(x = 95)) (hl : noAdjUnd l = true) :
    noAdjUnd (x :: l) = true := by
  cases l with
  | nil => rfl
  | cons b rest => simp [noAdjUnd, hx] at hl ⊢; exact hl

theorem noAdjUnd_tail {b : Nat} {l : Str} (h : noAdjUnd (b :: l) = true) : noAdjUnd l = true := by
  cases l with
  | nil => rfl
  | cons c rest => simp [noAdjUnd] at h; exact h.2

theorem lastNotUnd_cons (x : Nat) (l : Str) :
    lastNotUnd (x :: l) = if l.isEmpty then decide (¬(x = 95)) else lastNotUnd l := by
  cases l <;> rfl

theorem sanCore_all_envClass (s : Str) : ∀ st : SanState, (sanCore s st).all isEnvClassCode = true := by
  induction s with
  | nil => intro st; rfl
  | cons c rest ih =>
    intro st
    by_cases h : isAlnumCode c = true
    · have h2 := isAlnum_toUpper_envClass h
      have h95 : isEnvClassCode 95 = true := by decide
      cases st <;> simp [sanCore, h, h2, h95, ih SanState.inWord]
    · simp only [Bool.not_eq_true] at h
      cases st <;> simp [sanCore, h, ih SanState.notStarted, ih SanState.pendingSep]

theorem sanCore_head_not_und (s : Str) : (sanCore s .notStarted).head? ≠ some 95 := by
  induction s with
  | nil => simp [sanCore]
  | cons c rest ih =>
    by_cases h : isAlnumCode c = true
    · simp [sanCore, h, toUpperCode_ne_und h]
    · simp only [Bool.not_eq_true] at h
      simp [sanCore, h, ih]

theorem sanCore_lastNotUnd (s : Str) : ∀ st : SanState, lastNotUnd (sanCore s st) = true := by
  induction s with
  | nil => intro st; rfl
  | cons c rest ih =>
    intro st
    by_cases h : isAlnumCode c = true
    · have hu := toUpperCode_ne_und h
      have htail : lastNotUnd (toUpperCode c :: sanCore rest .inWord) = true := by
        rw [lastNotUnd_cons]
        cases hrec : sanCore rest SanState.inWord with
        | nil => simp [hu]
        | cons y ys => simpa [hrec] using ih SanState.inWord
      cases st <;> simp [sanCore, h] <;> exact htail
    · simp only [Bool.not_eq_true] at h
      cases st <;> simp [sanCore, h, ih SanState.notStarted, ih SanState.pendingSep]

theorem sanCore_noAdjUnd (s : Str) : ∀ st : SanState, noAdjUnd (sanCore s st) = true := by
  induction s with
  | nil => intro st; rfl
  | cons c rest ih =>
    intro st
    by_cases h : isAlnumCode c = true
    · have hu := toUpperCode_ne_und h
      have htail : noAdjUnd (toUpperCode c :: sanCore rest .inWord) = true :=
        noAdjUnd_cons hu (ih SanState.inWord)
      cases st <;> simp [sanCore, h]
      · exact htail
      · exact htail
      · simpa [noAdjUnd, hu] using htail
    · simp only [Bool.not_eq_true] at h
      cases st <;> simp [sanCore, h, ih SanState.notStarted, ih SanState.pendingSep]

theorem sanCore_ne_nil (s : Str) (hs : ∃ x ∈ s, isAlnumCode x = true) :
    ∀ st : SanState, sanCore s st ≠ [] := by
  induction s with
  | nil => simp at hs
  | cons c rest ih =>
    intro st
    by_cases h : isAlnumCode c = true
    · cases st <;> simp [sanCore, h]
    · simp only [Bool.not_eq_true] at h
      have hs2 : ∃ x ∈ rest, isAlnumCode x = true := by
        rcases hs with ⟨x, hx, hxa⟩
        rcases List.mem_cons.mp hx with rfl | hx2
        · rw [h] at hxa; cases hxa
        · exact ⟨x, hx2, hxa⟩
      cases st <;> simp [sanCore, h] <;>
        first
          | exact ih hs2 SanState.notStarted
          | exact ih hs2 SanState.pendingSep

theorem sanCore_cons_inWord {c : Nat} (rest : Str) (h : isAlnumCode c = true) :
    sanCore (c :: rest) .inWord = toUpperCode c :: sanCore rest .inWord := by
  simp [sanCore, h]

theorem lastNotUnd_getLast? : ∀ l : Str, lastNotUnd l = true → l.getLast? ≠ some 95
  | [], _ => by simp
  | [a], h => by
    simp [lastNotUnd] at h
    simp [h]
  | a :: b :: rest, h => by
    have h2 : lastNotUnd (b :: rest) = true := h
    rw [List.getLast?_cons_cons]
    exact lastNotUnd_getLast? (b :: rest) h2

theorem sanCore_inWord_id : ∀ l : Str, l.all isEnvClassCode = true → noAdjUnd l = true →
    lastNotUnd l = true → sanCore l .inWord = l
  | [], _, _, _ => rfl
  | [c], hall, _, hlast => by
    simp [List.all_cons] at hall
    simp [lastNotUnd] at hlast
    obtain ⟨hc, hcu⟩ := envClass_not_und_alnum hall hlast
    simp [sanCore, hc, hcu]
  | c :: d :: rest, hall, hadj, hlast => by
    simp [List.all_cons] at hall
    have hlast2 : lastNotUnd (d :: rest) = true := hlast
    have hadj2 : noAdjUnd (d :: rest) = true := noAdjUnd_tail hadj
    have halld : (d :: rest).all isEnvClassCode = true := by
      simp [List.all_cons]; exact ⟨hall.2.1, hall.2.2⟩
    by_cases hc95 : c = 95
    · subst hc95
      have hd95 : ¬(d = 95) := by
        simp [noAdjUnd] at hadj
        simpa using hadj.1
      obtain ⟨hd, hdu⟩ := envClass_not_und_alnum hall.2.1 hd95
      have hrest : sanCore rest .inWord = rest := by
        cases rest with
        | nil => rfl
        | cons e rest2 =>
          exact sanCore_inWord_id (e :: rest2) (by simpa using hall.2.2)
            (noAdjUnd_tail hadj2) hlast2
      have h95 : isAlnumCode 95 = false := by decide
      simp [sanCore, h95, hd, hdu, hrest]
    · obtain ⟨hc, hcu⟩ := envClass_not_und_alnum hall.1 hc95
      have hrec : sanCore (d :: rest) .inWord = d :: rest :=
        sanCore_inWord_id (d :: rest) halld hadj2 hlast2
      rw [sanCore_cons_inWord _ hc, hcu, hrec]

theorem sanitize_id_of_canonical (l : Str) (hall : l.all isEnvClassCode = true)
    (hadj : noAdjUnd l = true) (hlast : lastNotUnd l = true)
    (hhead : l.head? ≠ some 95) : sanitize l = l := by
  cases l with
  | nil => rfl
  | cons c rest =>
    simp at hhead
    simp [List.all_cons] at hall
    obtain ⟨hc, hcu⟩ := envClass_not_und_alnum hall.1 hhead
    have hrest : sanCore rest .inWord = rest := by
      cases rest with
      | nil => rfl
      | cons d rest2 =>
        exact sanCore_inWord_id (d :: rest2) (by simpa using hall.2)
          (noAdjUnd_tail hadj) hlast
    simp [sanitize, sanCore, hc, hcu, hrest]

theorem sanitize_idem (s : Str) : sanitize (sanitize s) = sanitize s :=
  sanitize_id_of_canonical _ (sanCore_all_envClass s _) (sanCore_noAdjUnd s _)
    (sanCore_lastNotUnd s _) (sanCore_head_not_und s)

/-- Matching of the pattern `^[A-Z0-9_]+$`: nonempty, all characters in the
class. -/
def matchesEnvVarPattern (s : Str) : Bool := (!s.isEmpty) && s.all isEnvClassCode

/-- C3 (amended).  For every input, `sanitize` yields a string over
`[A-Z0-9_]` with no leading or trailing underscore, and is idempotent; for
every input containing at least one alphanumeric character the result
moreover is nonempty, i.e. matches `^[A-Z0-9_]+$`.  (The unamended claim
fails only for inputs, such as ".", with no alphanumeric character at all:
there the result is the empty string, which `^[A-Z0-9_]+$` does not
match.) -/
theorem C3_sanitize_properties :
    (∀ s : Str, (sanitize s).all isEnvClassCode = true ∧
      (sanitize s).head? ≠ some 95 ∧ (sanitize s).getLast? ≠ some 95 ∧
      sanitize (sanitize s) = sanitize s) ∧
    (∀ s : Str, (∃ c ∈ s, isAlnumCode c = true) →
      matchesEnvVarPattern (sanitize s) = true) := by
  constructor
  · intro s
    exact ⟨sanCore_all_envClass s _, sanCore_head_not_und s,
      lastNotUnd_getLast? _ (sanCore_lastNotUnd s _), sanitize_idem s⟩
  · intro s hs
    have h1 := sanCore_ne_nil s hs SanState.notStarted
    have h2 := sanCore_all_envClass s SanState.notStarted
    simp only [matchesEnvVarPattern, sanitize, Bool.and_eq_true, Bool.not_eq_true']
    exact ⟨by simpa [List.isEmpty_iff] using h1, h2⟩

/-- Witness for C3 at the concrete alias `r1.alias`. -/
theorem C3_sanitize_properties_witness :
    matchesEnvVarPattern (sanitize (str "r1.alias")) = true :=
  C3_sanitize_properties.2 (str "r1.alias") (by decide)

/-- Counterexample to C3 as stated: the input "." contains `.` (code 46),
yet `sanitize` maps it to the empty string, which does not match
`^[A-Z0-9_]+$`. -/
theorem C3_sanitize_counterexample :
    46 ∈ str "." ∧ sanitize (str ".") = [] ∧
      matchesEnvVarPattern (sanitize (str ".")) = false := by decide

/-- Lookup in an association list embedding a Go map (first binding wins). -/
def assocLookup {α : Type} (m : List (Str × α)) (k : Str) : Option α :=
  (m.find? (fun kv => kv.1 == k)).map (fun kv => kv.2)

/-- Deployment request (naisrequest.Deploy): the fields consumed by the
environment-variable builder. -/
structure NaisDeploymentRequest where
  application : Str := []
  version : Str := []
  fasitEnvironment : Str := []
  «namespace» : Str := []
  zone : Str := []
deriving DecidableEq

/-- Resolved dependency bundle as consumed by the Environment Variable
Builder — the `NaisResource` shape exercised by resourcecreator_test.go:
alias name, resource type, plain properties, property-name remap map,
secret keys, certificate-file keys (file bodies embedded as code lists). -/
structure NaisResource where
  id : Nat := 0
  name : Str := []
  resourceType : Str := []
  properties : List (Str × Str) := []
  propertyMap : List (Str × Str) := []
  secret : List (Str × Str) := []
  certificates : List (Str × Str) := []
  ingresses : List (Str × Str) := []
deriving DecidableEq

/-- Modelled from the spec: the lower-cased sanitized secret/volume key
variant for a resource-derived key (`sanitize(resourceName)_sanitize(key)`
lowered); per the tests, `applicationproperties` resources use the bare
property key. -/
def NaisResource.ToResourceVariable (r : NaisResource) (property : Str) : Str :=
  if r.resourceType == str "applicationproperties" then
    (sanitize property).map toLowerCode
  else
    (sanitize (r.name ++ 95 :: property)).map toLowerCode

/-- Modelled from the spec: the upper-case environment-variable name for a
resource property or secret key (`sanitize(alias_key)`); per the tests,
`applicationproperties` resources use the bare property key. -/
def NaisResource.ToEnvironmentVariable (r : NaisResource) (property : Str) : Str :=
  if r.resourceType == str "applicationproperties" then sanitize property
  else sanitize (r.name ++ 95 :: property)

/-- Modelled from the spec: the environment variable name for a property —
the configured remap verbatim when one exists for the key, the sanitized
derived name otherwise. -/
def envVarName (r : NaisResource) (key : Str) : Str :=
  match assocLookup r.propertyMap key with
  | some mapped => mapped
  | none => r.ToEnvironmentVariable key

/-- Value of one environment entry: a literal, or a reference into the
generated Secret object. -/
inductive EnvVarSource where
  | literal (value : Str)
  | secretKeyRef (secretName : Str) (key : Str)
deriving DecidableEq

/-- One environment-variable assignment. -/
structure EnvVar where
  name : Str
  source : EnvVarSource
deriving DecidableEq

/-- Secret key referenced by an entry, if it is a secret reference. -/
def secretKeyOf : EnvVarSource → Option Str
  | .secretKeyRef _ k => some k
  | _ => none

/-- Collision message pinned by TestCheckForDuplicates. -/
def dupVarMessage (varName property aliasName rtype : Str) : Str :=
  str "found duplicate environment variable " ++ varName ++ str " when adding " ++
    property ++ str " for " ++ aliasName ++ str " (" ++ rtype ++
    str ") Change the Fasit alias or use propertyMap to create unique variable names"

/-- Secret-key-ref collision message pinned by TestCheckForDuplicates. -/
def dupKeyMessage (key name1 name2 property aliasName rtype : Str) : Str :=
  str "found duplicate secret key ref " ++ key ++ str " between " ++ name1 ++
    str " and " ++ name2 ++ str " when adding " ++ property ++ str " for " ++ aliasName ++
    str " (" ++ rtype ++
    str ") Change the Fasit alias or use propertyMap to create unique variable names"

/-- Modelled from the spec (collision policy of the Environment Variable
Builder, absent from src/; message format pinned by TestCheckForDuplicates):
before appending an entry, scan all previously appended entries; a name
collision, or two secret references to the same secret key, yields an
error naming the colliding variable, the offending key and the resource
being added, and suggesting the remap mechanism. -/
def checkForDuplicates (envVars : List EnvVar) (ev : EnvVar) (property : Str)
    (r : NaisResource) : Option Str :=
  match envVars.find? (fun v => v.name == ev.name) with
  | some _ => some (dupVarMessage ev.name property r.name r.resourceType)
  | none =>
    match envVars.find? (fun v =>
        match secretKeyOf v.source, secretKeyOf ev.source with
        | some k1, some k2 => k1 == k2
        | _, _ => false) with
    | some v => some (dupKeyMessage ((secretKeyOf v.source).getD []) v.name ev.name
        property r.name r.resourceType)
    | none => none

/-- Append one entry after the collision check. -/
def appendChecked (acc : List EnvVar) (ev : EnvVar) (property : Str)
    (r : NaisResource) : Except Str (List EnvVar) :=
  match checkForDuplicates acc ev property r with
  | some e => .error e
  | none => .ok (acc ++ [ev])

/-- Append a run of entries derived from one resource's key/value list. -/
def addEntries (r : NaisResource) (mk : Str × Str → EnvVar) :
    List (Str × Str) → List EnvVar → Except Str (List EnvVar)
  | [], acc => .ok acc
  | kv :: rest, acc =>
    match appendChecked acc (mk kv) kv.1 r with
    | .error e => .error e
    | .ok acc2 => addEntries r mk rest acc2

/-- Modelled from the spec: entries contributed by one resolved resource —
literal properties, secret references into the generated Secret object,
and literal mount paths for certificate files. -/
def addResourceVars (app : Str) (r : NaisResource) (acc : List EnvVar) :
    Except Str (List EnvVar) :=
  match addEntries r (fun kv => ⟨envVarName r kv.1, .literal kv.2⟩) r.properties acc with
  | .error e => .error e
  | .ok acc1 =>
    match addEntries r
        (fun kv => ⟨envVarName r kv.1, .secretKeyRef app (r.ToResourceVariable kv.1)⟩)
        r.secret acc1 with
    | .error e => .error e
    | .ok acc2 =>
      addEntries r
        (fun kv => ⟨envVarName r kv.1,
          .literal (str "/var/run/secrets/naisd.io/" ++ r.ToResourceVariable kv.1)⟩)
        r.certificates acc2

/-- Fold of `addResourceVars` over the resources in declaration order. -/
def addAllResources (app : Str) : List NaisResource → List EnvVar → Except Str (List EnvVar)
  | [], acc => .ok acc
  | r :: rest, acc =>
    match addResourceVars app r acc with
    | .error e => .error e
    | .ok acc2 => addAllResources app rest acc2

/-- Modelled from the spec: `createEnvironmentVariables` of the Environment
Variable Builder (absent from src/, pinned by its tests): fixed entries
first, then per resolved resource in declaration order its properties,
secret references and certificate-file entries, failing fast on the first
collision. -/
def createEnvironmentVariables (req : NaisDeploymentRequest)
    (resources : List NaisResource) : Except Str (List EnvVar) :=
  addAllResources req.application resources
    [⟨str "APP_NAME", .literal req.application⟩,
     ⟨str "APP_VERSION", .literal req.version⟩,
     ⟨str "FASIT_ENVIRONMENT_NAME", .literal req.fasitEnvironment⟩]

deriving instance DecidableEq for Except

/-- Does `s` start with `p`? -/
def strStartsWith : Str → Str → Bool
  | _, [] => true
  | [], _ :: _ => false
  | c :: cs, p :: ps => decide (c = p) && strStartsWith cs ps

/-- Does `s` contain `p` as a contiguous substring? -/
def strContains (s p : Str) : Bool :=
  match s with
  | [] => p.isEmpty
  | _ :: rest => strStartsWith s p || strContains rest p

theorem appendChecked_nodup {acc : List EnvVar} {ev : EnvVar} {property : Str}
    {r : NaisResource} {out : List EnvVar}
    (hacc : (acc.map EnvVar.name).Nodup)
    (h : appendChecked acc ev property r = .ok out) :
    (out.map EnvVar.name).Nodup := by
  unfold appendChecked at h
  cases hc : checkForDuplicates acc ev property r with
  | some e => rw [hc] at h; cases h
  | none =>
    rw [hc] at h
    cases h
    cases hf : acc.find? (fun v => v.name == ev.name) with
    | some v => simp [checkForDuplicates, hf] at hc
    | none =>
      have hnotin : ev.name ∉ acc.map EnvVar.name := by
        intro hmem
        rcases List.mem_map.mp hmem with ⟨v, hv, hvn⟩
        have hnone := List.find?_eq_none.mp hf v hv
        simp [hvn] at hnone
      rw [List.map_append]
      exact (List.perm_append_singleton _ _).nodup_iff.mpr
        (List.nodup_cons.mpr ⟨hnotin, hacc⟩)

theorem addEntries_nodup {r : NaisResource} {mk : Str × Str → EnvVar} :
    ∀ (entries : List (Str × Str)) (acc out : List EnvVar),
    (acc.map EnvVar.name).Nodup → addEntries r mk entries acc = .ok out →
    (out.map EnvVar.name).Nodup
  | [], _, _, hacc, h => by cases h; exact hacc
  | kv :: rest, acc, out, hacc, h => by
    unfold addEntries at h
    cases hap : appendChecked acc (mk kv) kv.1 r with
    | error e => rw [hap] at h; cases h
    | ok acc2 =>
      rw [hap] at h
      exact addEntries_nodup rest acc2 out (appendChecked_nodup hacc hap) h

theorem addResourceVars_nodup {app : Str} {r : NaisResource} {acc out : List EnvVar}
    (hacc : (acc.map EnvVar.name).Nodup)
    (h : addResourceVars app r acc = .ok out) :
    (out.map EnvVar.name).Nodup := by
  unfold addResourceVars at h
  split at h
  · cases h
  next acc1 h1 =>
    split at h
    · cases h
    next acc2 h2 =>
      exact addEntries_nodup _ _ _ (addEntries_nodup _ _ _ (addEntries_nodup _ _ _ hacc h1) h2) h

theorem addAllResources_nodup {app : Str} :
    ∀ (resources : List NaisResource) (acc out : List EnvVar),
    (acc.map EnvVar.name).Nodup → addAllResources app resources acc = .ok out →
    (out.map EnvVar.name).Nodup
  | [], _, _, hacc, h => by cases h; exact hacc
  | r :: rest, acc, out, hacc, h => by
    unfold addAllResources at h
    cases hr : addResourceVars app r acc with
    | error e => rw [hr] at h; cases h
    | ok acc2 =>
      rw [hr] at h
      exact addAllResources_nodup rest acc2 out (addResourceVars_nodup hacc hr) h

/-- Resource of TestCheckForDuplicates: alias srvapp, type credential,
secret key password. -/
def srvappCredential : NaisResource :=
  { name := str "srvapp", resourceType := str "credential",
    secret := [(str "password", str "foo")] }

/-- Resource of TestCheckForDuplicates: alias srvapp, type certificate,
secret key password. -/
def srvappCertificate : NaisResource :=
  { name := str "srvapp", resourceType := str "certificate",
    secret := [(str "password", str "bar")] }

/-- Deployment request of TestCheckForDuplicates. -/
def myappRequest : NaisDeploymentRequest :=
  { application := str "myapp", version := str "1" }

/-- C1 (amended).  Collisions of derived environment-variable names are a
hard failure, not a dedup: whenever `createEnvironmentVariables` succeeds
its variable names are pairwise distinct, and on the TestCheckForDuplicates
input — two distinct resources srvapp (credential) and srvapp (certificate)
both carrying secret key password — it fails with the error naming the
colliding variable SRVAPP_PASSWORD, the offending key, and the resource
whose entry triggered the collision (alias srvapp, type certificate),
suggesting the remap mechanism.  The message identifies the earlier
colliding resource only through the variable name, not by its own type. -/
theorem C1_envvar_collision :
    (∀ (req : NaisDeploymentRequest) (resources : List NaisResource) (evs : List EnvVar),
      createEnvironmentVariables req resources = .ok evs →
      (evs.map EnvVar.name).Nodup) ∧
    createEnvironmentVariables myappRequest [srvappCredential, srvappCertificate] =
      .error (str "found duplicate environment variable SRVAPP_PASSWORD when adding password for srvapp (certificate) Change the Fasit alias or use propertyMap to create unique variable names") := by
  constructor
  · intro req resources evs h
    refine addAllResources_nodup resources _ evs ?_ h
    show ([str "APP_NAME", str "APP_VERSION", str "FASIT_ENVIRONMENT_NAME"] : List Str).Nodup
    decide
  · decide

/-- Witness for C1: on a single-resource input the builder succeeds and the
resulting names are pairwise distinct. -/
theorem C1_envvar_collision_witness :
    (([⟨str "APP_NAME", .literal (str "myapp")⟩,
       ⟨str "APP_VERSION", .literal (str "1")⟩,
       ⟨str "FASIT_ENVIRONMENT_NAME", .literal []⟩,
       ⟨str "SRVAPP_PASSWORD", .secretKeyRef (str "myapp") (str "srvapp_password")⟩] :
      List EnvVar).map EnvVar.name).Nodup :=
  C1_envvar_collision.1 myappRequest [srvappCredential] _ (by decide)

/-- Counterexample to C1 as stated: on the TestCheckForDuplicates input the
collision error does not name both source resources with their types — the
first resource's type `credential` does not occur in the message. -/
theorem C1_envvar_collision_counterexample :
    createEnvironmentVariables myappRequest [srvappCredential, srvappCertificate] =
      .error (str "found duplicate environment variable SRVAPP_PASSWORD when adding password for srvapp (certificate) Change the Fasit alias or use propertyMap to create unique variable names") ∧
    srvappCredential.resourceType = str "credential" ∧
    strContains
      (str "found duplicate environment variable SRVAPP_PASSWORD when adding password for srvapp (certificate) Change the Fasit alias or use propertyMap to create unique variable names")
      (str "credential") = false := by
  decide

/-- Autoscaler cluster object: opaque resource-version token plus the spec
fields set by the builder. -/
structure Autoscaler where
  resourceVersion : Str := []
  name : Str := []
  «namespace» : Str := []
  team : Str := []
  minReplicas : Int := 0
  maxReplicas : Int := 0
  cpuThresholdPercentage : Int := 0
deriving DecidableEq

/-- Modelled from the spec (§4.4, Autoscaler): builder absent from src/
(pinned by TestCreateOrUpdateAutoscaler).  Against a nil previous object
the resource-version is empty; against an existing object its
resource-version is carried over; min/max/cpu-threshold are copied
verbatim and every other spec field is freshly computed. -/
def createOrUpdateAutoscalerDef (mn mx cpuThreshold : Int) (existing : Option Autoscaler)
    (app ns team : Str) : Autoscaler :=
  { resourceVersion := match existing with | some e => e.resourceVersion | none => []
    name := app
    «namespace» := ns
    team := team
    minReplicas := mn
    maxReplicas := mx
    cpuThresholdPercentage := cpuThreshold }

/-- Kubernetes object meta: name, namespace, team label and the opaque
resource-version token (empty on a freshly built object). -/
structure ObjectMeta where
  name : Str := []
  «namespace» : Str := []
  team : Str := []
  resourceVersion : Str := []
deriving DecidableEq

/-- Service cluster object as built by createServiceDef. -/
structure Service where
  objectMeta : ObjectMeta := {}
deriving DecidableEq

/-- Embedding of CreateObjectMeta as the tests use it
(resourcecreator_test.go line 818): fresh object meta from name, namespace
and team, with no resource-version. -/
def CreateObjectMeta (app ns team : Str) : ObjectMeta :=
  { name := app, «namespace» := ns, team := team }

/-- Modelled from the spec: the service definition builder is absent from
src/, but its shape is pinned by resourcecreator_test.go line 819 —
createServiceDef(objectMeta) takes the object meta alone and no previous
object, so the definition is always built fresh. -/
def createServiceDef (meta : ObjectMeta) : Service :=
  { objectMeta := meta }

/-- Modelled from the spec: the service reconciliation step, pinned by
TestCreateK8sResources ("nothing happens to service if it already
exists"): an existing service is left untouched — no merged object is
built — and only a missing service is created, from the fresh
definition. -/
def createOrUpdateService (existing : Option Service) (meta : ObjectMeta) :
    Option Service :=
  match existing with
  | some _ => none
  | none => some (createServiceDef meta)

/-- Secret cluster object: one blob per application. -/
structure SecretObject where
  resourceVersion : Str := []
  name : Str := []
  «namespace» : Str := []
  team : Str := []
  data : List (Str × Str) := []
deriving DecidableEq

/-- Modelled from the spec (§4.4, Secret): keys are the lowered sanitized
resource variables for every secret and certificate-file key; the previous
object's resource-version is carried over when present. -/
def createSecretDef (resources : List NaisResource) (existing : Option SecretObject)
    (app ns team : Str) : SecretObject :=
  { resourceVersion := match existing with | some e => e.resourceVersion | none => []
    name := app
    «namespace» := ns
    team := team
    data := (resources.map (fun r =>
      r.secret.map (fun kv => (r.ToResourceVariable kv.1, kv.2)) ++
      r.certificates.map (fun kv => (r.ToResourceVariable kv.1, kv.2)))).flatten }

/-- RoleRef of k8s RBAC as built by createRoleRef (part_004 lines 20-25). -/
structure RoleRef where
  kind : Str := []
  name : Str := []
deriving DecidableEq

/-- Subject of a role binding. -/
structure RbacSubject where
  kind : Str := []
  name : Str := []
  «namespace» : Str := []
deriving DecidableEq

/-- RoleBinding cluster object. -/
structure RoleBinding where
  objectMeta : ObjectMeta := {}
  subjects : List RbacSubject := []
  roleRef : RoleRef := {}
deriving DecidableEq

/-- app.Spec as createOrUpdateRoleBinding consumes it; the app package is
outside src/, and its ResourceName derivation is abstracted to the
application name, which the role-binding claim does not depend on. -/
structure AppSpec where
  application : Str := []
  «namespace» : Str := []
  team : Str := []
deriving DecidableEq

/-- Fresh object meta generated for a role binding (generateObjectMeta's
source is outside src/; a generated meta carries no resource-version since
it is built from the app spec alone). -/
def generateObjectMeta (subject : AppSpec) : ObjectMeta :=
  { name := subject.application, «namespace» := subject.«namespace», team := subject.team }

/-- Embedding of createRoleBindingDef (src/unnamed/part_004 lines 27-37):
a role binding built fresh from the app spec and role ref — ObjectMeta
from generateObjectMeta, one ServiceAccount subject — with no previous
object consulted anywhere. -/
def createRoleBindingDef (subject : AppSpec) (roleRef : RoleRef) : RoleBinding :=
  { objectMeta := generateObjectMeta subject
    subjects := [{ kind := str "ServiceAccount", name := subject.application,
                   «namespace» := subject.«namespace» }]
    roleRef := roleRef }

/-- Embedding of createOrUpdateRoleBinding (src/unnamed/part_004 lines
9-18): the def is built before the Get, the Get result only selects
Update(def) versus Create(def), and the same freshly built def — never the
existing object — is sent in both branches.  `existing` is the Get
outcome; the result is the object sent to the cluster. -/
def createOrUpdateRoleBinding (existing : Option RoleBinding) (subject : AppSpec)
    (roleRef : RoleRef) : RoleBinding :=
  match existing with
  | some _ => createRoleBindingDef subject roleRef
  | none => createRoleBindingDef subject roleRef

/-- C2 (amended).  The merge semantics hold for the autoscaler and secret
builders: a nil previous object gives an empty resource-version with every
field freshly computed, and a non-nil previous object contributes exactly
its resource-version while the spec fields are overwritten independently
of it.  They do not hold for every resource kind: the service definition
is built from the object meta alone and an existing service is left
untouched rather than merged, and the role-binding builder sends a freshly
built object — resource-version empty — in the update branch too,
whatever the existing role binding holds. -/
theorem C2_builder_merge_and_exceptions :
    (∀ (mn mx th : Int) (app ns team : Str),
      (createOrUpdateAutoscalerDef mn mx th none app ns team).resourceVersion = [] ∧
      (∀ cur, (createOrUpdateAutoscalerDef mn mx th (some cur) app ns team).resourceVersion =
        cur.resourceVersion) ∧
      (∀ ex, (createOrUpdateAutoscalerDef mn mx th ex app ns team).minReplicas = mn ∧
        (createOrUpdateAutoscalerDef mn mx th ex app ns team).maxReplicas = mx ∧
        (createOrUpdateAutoscalerDef mn mx th ex app ns team).cpuThresholdPercentage = th ∧
        (createOrUpdateAutoscalerDef mn mx th ex app ns team).name = app)) ∧
    (∀ (resources : List NaisResource) (app ns team : Str),
      (createSecretDef resources none app ns team).resourceVersion = [] ∧
      (∀ cur, (createSecretDef resources (some cur) app ns team).resourceVersion =
        cur.resourceVersion) ∧
      (∀ ex ex2, (createSecretDef resources ex app ns team).data =
        (createSecretDef resources ex2 app ns team).data ∧
        (createSecretDef resources ex app ns team).name = app)) ∧
    (∀ meta : ObjectMeta,
      createOrUpdateService none meta = some (createServiceDef meta) ∧
      (createServiceDef meta).objectMeta = meta ∧
      (∀ cur, createOrUpdateService (some cur) meta = none)) ∧
    (∀ (existing : Option RoleBinding) (subject : AppSpec) (roleRef : RoleRef),
      createOrUpdateRoleBinding existing subject roleRef =
        createRoleBindingDef subject roleRef ∧
      (createOrUpdateRoleBinding existing subject roleRef).objectMeta.resourceVersion = []) := by
  refine ⟨fun mn mx th app ns team => ⟨rfl, fun cur => rfl, fun ex => ⟨rfl, rfl, rfl, rfl⟩⟩,
    fun resources app ns team => ⟨rfl, fun cur => rfl, fun ex ex2 => ⟨rfl, rfl⟩⟩,
    fun meta => ⟨rfl, rfl, fun cur => rfl⟩,
    fun existing subject roleRef => ?_⟩
  cases existing <;> exact ⟨rfl, rfl⟩

/-- App spec of the role-binding counterexample. -/
def rbAppSpec : AppSpec :=
  { application := str "appname", «namespace» := str "namespace", team := str "teamName" }

/-- Role ref of the role-binding counterexample. -/
def rbRoleRef : RoleRef :=
  { kind := str "ClusterRole", name := str "serviceaccount-in-app" }

/-- An existing role binding carrying the cluster-assigned resource-version
12369. -/
def existingRoleBinding : RoleBinding :=
  { objectMeta :=
      { name := str "appname", «namespace» := str "namespace",
        team := str "teamName", resourceVersion := str "12369" }
    roleRef := rbRoleRef }

/-- Counterexample to C2 as stated: for the role-binding resource kind
(src/unnamed/part_004), building against a non-nil previous state does not
carry the previous object's resource-version — against an existing role
binding with resource-version 12369 the update branch sends a freshly
built object whose resource-version is empty. -/
theorem C2_rolebinding_fresh_update_counterexample :
    (createOrUpdateRoleBinding (some existingRoleBinding) rbAppSpec rbRoleRef).objectMeta.resourceVersion = [] ∧
    existingRoleBinding.objectMeta.resourceVersion = str "12369" ∧
    (createOrUpdateRoleBinding (some existingRoleBinding) rbAppSpec rbRoleRef).objectMeta.resourceVersion ≠
      existingRoleBinding.objectMeta.resourceVersion := by decide

namespace Fasit

/-- appError of fasit.go: message plus HTTP status code. -/
structure AppError where
  message : Str
  code : Nat
deriving DecidableEq

/-- NaisResource of src/api/fasit.go (seven fields). -/
structure NaisResource where
  id : Nat := 0
  name : Str := []
  resourceType : Str := []
  properties : List (Str × Str) := []
  secret : List (Str × Str) := []
  certificates : List (Str × Str) := []
  ingresses : List (Str × Str) := []
deriving DecidableEq

/-- FasitResource of fasit.go: the decoded registry response body.  The
`secrets` field is the map key ↦ { "ref" ↦ url }; `certificates` is the
raw files object, kept abstract as key/value pairs. -/
structure FasitResource where
  id : Nat := 0
  «alias» : Str := []
  resourceType : Str := []
  properties : List (Str × Str) := []
  secrets : List (Str × List (Str × Str)) := []
  certificates : List (Str × Str) := []
deriving DecidableEq

/-- getFirstKey of fasit.go (lines 583-590): the first key in map
iteration order, or the empty string for an empty map. -/
def getFirstKey {α : Type} (m : List (Str × α)) : Str :=
  match m with
  | [] => []
  | (k, _) :: _ => k

/-- URL dereferenced by resolveSecret: `secrets[getFirstKey(secrets)]["ref"]`
(fasit.go line 555); missing lookups yield the Go zero value "". -/
def firstSecretRefUrl (secrets : List (Str × List (Str × Str))) : Str :=
  (assocLookup ((assocLookup secrets (getFirstKey secrets)).getD []) (str "ref")).getD []

/-- Embedding of resolveSecret (fasit.go lines 553-581): build a GET
request for the `ref` URL of the first secret entry, send it with the
caller's basic-auth credentials through the HTTP oracle `fetch` (which
subsumes transport errors and non-2xx statuses as `.error`), and produce
the single-entry map password ↦ body. -/
def resolveSecret (secrets : List (Str × List (Str × Str))) (username password : Str)
    (fetch : Str → Str → Str → Except Str Str) : Except Str (List (Str × Str)) :=
  match fetch (firstSecretRefUrl secrets) username password with
  | .error e => .error e
  | .ok body => .ok [(str "password", body)]

/-- Go strings.Split(s, CRLF): split on the two-character separator. -/
def splitCRLF : Str → List Str
  | [] => [[]]
  | 13 :: 10 :: rest => [] :: splitCRLF rest
  | c :: rest =>
    match splitCRLF rest with
    | [] => [[c]]
    | w :: ws => (c :: w) :: ws

/-- Go strings.SplitN(s, "=", 2): split at the first '=' (code 61); a
string without '=' yields a one-element list. -/
def splitN2Eq : Str → List Str
  | [] => [[]]
  | 61 :: rest => [[], rest]
  | c :: rest =>
    match splitN2Eq rest with
    | [] => [[c]]
    | w :: ws => (c :: w) :: ws

/-- Go map assignment m[k] = v on an association list: overwrite the
binding in place or append a new one. -/
def mapAssign (m : List (Str × Str)) (k v : Str) : List (Str × Str) :=
  match m with
  | [] => [(k, v)]
  | kv :: rest => if kv.1 == k then (k, v) :: rest else kv :: mapAssign rest k v

/-- Go delete(m, k). -/
def mapDelete (m : List (Str × Str)) (k : Str) : List (Str × Str) :=
  m.filter (fun kv => !(kv.1 == k))

/-- Embedding of the applicationproperties branch of mapToNaisResource
(fasit.go lines 465-471): the synthetic applicationProperties value is
split on CRLF; each line is split at the first '=' and `parts[1]` is read
unconditionally, so a line without '=' makes `parts` a one-element slice
and the read panics with index out of range — embedded as `none`; finally
the synthetic key is deleted from the property map. -/
def explodeApplicationProperties (props : List (Str × Str)) : Option (List (Str × Str)) :=
  let value := (assocLookup props (str "applicationProperties")).getD []
  let step : Option (List (Str × Str)) := (splitCRLF value).foldl
    (fun acc line =>
      match acc with
      | none => none
      | some m =>
        match splitN2Eq line with
        | [k, v] => some (mapAssign m k v)
        | _ => none) (some props)
  match step with
  | none => none
  | some m => some (mapDelete m (str "applicationProperties"))

/-- Embedding of mapToNaisResource (fasit.go lines 440-474).  The
secondary certificate fetch is the oracle `resolveCerts`; the secret fetch
is the oracle `fetch` threaded into resolveSecret.  The outer `Option` is
panic (`none` when the applicationproperties explosion panics); the inner
`Except` is the ordinary error result. -/
def mapToNaisResource (fr : FasitResource) (username password : Str)
    (fetch : Str → Str → Str → Except Str Str)
    (resolveCerts : List (Str × Str) → Str → Except Str (List (Str × Str))) :
    Option (Except Str NaisResource) :=
  let base : NaisResource :=
    { id := fr.id, name := fr.«alias», resourceType := fr.resourceType,
      properties := fr.properties }
  let withSecret : Except Str NaisResource :=
    if fr.secrets.length > 0 then
      match resolveSecret fr.secrets username password fetch with
      | .error e => .error (str "Unable to resolve secret: " ++ e)
      | .ok sec => .ok { base with secret := sec }
    else .ok base
  match withSecret with
  | .error e => some (.error e)
  | .ok res =>
    if fr.resourceType == str "certificate" && decide (fr.certificates.length > 0) then
      match resolveCerts fr.certificates fr.«alias» with
      | .error e => some (.error (str "unable to resolve Certificates: " ++ e))
      | .ok files => some (.ok { res with certificates := files })
    else if fr.resourceType == str "applicationproperties" then
      match explodeApplicationProperties res.properties with
      | none => none
      | some props => some (.ok { res with properties := props })
    else some (.ok res)

end Fasit

namespace Fasit

example : splitCRLF (str "key1=value1\r\nkey2=value2") =
  [str "key1=value1", str "key2=value2"] := by decide
example : splitN2Eq (str "a=b=c") = [str "a", str "b=c"] := by decide
example : splitN2Eq (str "noequals") = [str "noequals"] := by decide

/-- C4: a registry resource of type applicationproperties whose property
block contains a line without '=' makes mapToNaisResource panic (index out
of range on `parts[1]`) instead of returning an ordinary error, while a
well-formed CRLF-delimited block is exploded into individual properties —
each line split at the first '=' — with the synthetic key removed. -/
theorem C4_applicationproperties_explosion :
    explodeApplicationProperties
      [(str "applicationProperties", str "key1=value1\r\nkey2.Property=dc=preprod,dc=local")] =
      some [(str "key1", str "value1"),
            (str "key2.Property", str "dc=preprod,dc=local")] ∧
    explodeApplicationProperties
      [(str "applicationProperties", str "key1=value1\r\nnoequalssign")] = none ∧
    mapToNaisResource
      { «alias» := str "resource3", resourceType := str "applicationproperties",
        properties := [(str "applicationProperties", str "key1=value1\r\nnoequalssign")] }
      [] [] (fun _ _ _ => .error []) (fun _ _ => .error []) = none ∧
    mapToNaisResource
      { «alias» := str "resource3", resourceType := str "applicationproperties",
        properties := [(str "applicationProperties", str "key1=value1")] }
      [] [] (fun _ _ _ => .error []) (fun _ _ => .error []) =
      some (.ok
        { name := str "resource3", resourceType := str "applicationproperties",
          properties := [(str "key1", str "value1")] }) := by
  decide

/-- C5: resolution fetches exactly one secret — the first entry of the
registry response.  The result is insensitive to every entry beyond the
first, and depends on the fetch oracle only at the first entry's embedded
reference URL, queried with the caller's credentials. -/
theorem C5_resolveSecret_first_entry_only :
    (∀ (e : Str × List (Str × Str)) (rest : List (Str × List (Str × Str)))
      (u p : Str) (fetch : Str → Str → Str → Except Str Str),
      resolveSecret (e :: rest) u p fetch = resolveSecret [e] u p fetch) ∧
    (∀ (secrets : List (Str × List (Str × Str))) (u p : Str)
      (f g : Str → Str → Str → Except Str Str),
      f (firstSecretRefUrl secrets) u p = g (firstSecretRefUrl secrets) u p →
      resolveSecret secrets u p f = resolveSecret secrets u p g) := by
  constructor
  · intro e rest u p fetch
    simp [resolveSecret, firstSecretRefUrl, getFirstKey, assocLookup, List.find?]
  · intro secrets u p f g h
    unfold resolveSecret
    rw [h]

/-- Witness for C5: two oracles that agree only at the first entry's ref
URL produce the same resolution on a two-entry response. -/
theorem C5_resolveSecret_first_entry_only_witness :
    resolveSecret
      [(str "first", [(str "ref", str "http://a")]),
       (str "second", [(str "ref", str "http://b")])]
      (str "u") (str "p") (fun url _ _ => .ok url) =
    resolveSecret
      [(str "first", [(str "ref", str "http://a")]),
       (str "second", [(str "ref", str "http://b")])]
      (str "u") (str "p") (fun _ _ _ => .ok (str "http://a")) :=
  C5_resolveSecret_first_entry_only.2 _ (str "u") (str "p") _ _ (by decide)

/-- C9: whatever key names the registry response used, a successfully
resolved secret is the single-entry map whose only key is the literal
"password", holding the fetched body of the first entry's ref URL. -/
theorem C9_resolveSecret_password_key :
    ∀ (secrets : List (Str × List (Str × Str))) (u p : Str)
      (fetch : Str → Str → Str → Except Str Str) (r : List (Str × Str)),
      resolveSecret secrets u p fetch = .ok r →
      ∃ body : Str, fetch (firstSecretRefUrl secrets) u p = .ok body ∧
        r = [(str "password", body)] := by
  intro secrets u p fetch r h
  unfold resolveSecret at h
  cases hf : fetch (firstSecretRefUrl secrets) u p with
  | error e => rw [hf] at h; cases h
  | ok body => rw [hf] at h; cases h; exact ⟨body, rfl, rfl⟩

/-- Witness for C9 at a concrete registry response with a non-password
key name. -/
theorem C9_resolveSecret_password_key_witness :
    ∃ body : Str,
      (fun _ _ _ => (.ok (str "s3cret") : Except Str Str))
        (firstSecretRefUrl [(str "somekey", [(str "ref", str "http://a")])])
        (str "u") (str "p") = .ok body ∧
      [(str "password", str "s3cret")] = [(str "password", body)] :=
  C9_resolveSecret_password_key
    [(str "somekey", [(str "ref", str "http://a")])] (str "u") (str "p")
    (fun _ _ _ => .ok (str "s3cret")) [(str "password", str "s3cret")] (by decide)

end Fasit

namespace Fasit

/-- ResourceRequest of fasit.go: alias plus resource type. -/
structure ResourceRequest where
  «alias» : Str
  resourceType : Str
deriving DecidableEq

/-- ExposedResource of manifest.go: an endpoint this application
publishes. -/
structure ExposedResource where
  «alias» : Str := []
  resourceType : Str := []
  path : Str := []
  description : Str := []
  wsdlGroupId : Str := []
  wsdlArtifactId : Str := []
  wsdlVersion : Str := []
  securityToken : Str := []
  allZones : Bool := false
deriving DecidableEq

/-- The three registry operations CreateOrUpdateFasitResources drives,
as oracles: scoped lookup (AppError carries the HTTP code), create, and
update (full overwrite of an existing id). -/
structure FasitOps where
  getScoped : ResourceRequest → Except AppError NaisResource
  create : ExposedResource → Except Str Nat
  update : Nat → ExposedResource → Except Str Nat

/-- Error text of the failed-create branch (fasit.go line 168). -/
def failedCreateMessage (r : ExposedResource) (e : Str) : Str :=
  str "Failed creating resource: " ++ r.«alias» ++ str " of type " ++ r.resourceType ++
    str " with path " ++ r.path ++ str ". (" ++ e ++ str ")"

/-- Error text of the failed-update branch (fasit.go line 180). -/
def failedUpdateMessage (r : ExposedResource) (e : Str) : Str :=
  str "Failed updating resource: " ++ r.«alias» ++ str " of type " ++ r.resourceType ++
    str " with path " ++ r.path ++ str ". (" ++ e ++ str ")"

/-- Embedding of the loop body of CreateOrUpdateFasitResources (fasit.go
lines 159-185) with an explicit id accumulator, exactly as the Go loop
builds `exposedResourceIds`: look up by alias+type; a 404 means create, a
different lookup failure aborts the batch, a hit means full-overwrite
update of the existing id; any create/update failure aborts the batch with
no ids. -/
def CreateOrUpdateAux (ops : FasitOps) :
    List ExposedResource → List Nat → Except Str (List Nat)
  | [], acc => .ok acc
  | r :: rest, acc =>
    match ops.getScoped ⟨r.«alias», r.resourceType⟩ with
    | .error appErr =>
      if appErr.code = 404 then
        match ops.create r with
        | .error e => .error (failedCreateMessage r e)
        | .ok createdId => CreateOrUpdateAux ops rest (acc ++ [createdId])
      else .error appErr.message
    | .ok existingResource =>
      match ops.update existingResource.id r with
      | .error e => .error (failedUpdateMessage r e)
      | .ok updatedId => CreateOrUpdateAux ops rest (acc ++ [updatedId])

/-- Embedding of CreateOrUpdateFasitResources (fasit.go lines 156-187). -/
def CreateOrUpdateFasitResources (ops : FasitOps) (resources : List ExposedResource) :
    Except Str (List Nat) :=
  CreateOrUpdateAux ops resources []

/-- Specification of one batch step, in isolation. -/
def processOne (ops : FasitOps) (r : ExposedResource) : Except Str Nat :=
  match ops.getScoped ⟨r.«alias», r.resourceType⟩ with
  | .error appErr =>
    if appErr.code = 404 then
      match ops.create r with
      | .error e => .error (failedCreateMessage r e)
      | .ok createdId => .ok createdId
    else .error appErr.message
  | .ok existingResource =>
    match ops.update existingResource.id r with
    | .error e => .error (failedUpdateMessage r e)
    | .ok updatedId => .ok updatedId

/-- Left-to-right sequencing of `processOne`: the first failing step is the
result and contributes no ids. -/
def processAll (ops : FasitOps) : List ExposedResource → Except Str (List Nat)
  | [] => .ok []
  | r :: rest =>
    match processOne ops r with
    | .error e => .error e
    | .ok id =>
      match processAll ops rest with
      | .error e => .error e
      | .ok ids => .ok (id :: ids)

theorem CreateOrUpdateAux_eq_processAll (ops : FasitOps) :
    ∀ (resources : List ExposedResource) (acc : List Nat),
    CreateOrUpdateAux ops resources acc =
      match processAll ops resources with
      | .error e => .error e
      | .ok ids => .ok (acc ++ ids)
  | [], acc => by simp [CreateOrUpdateAux, processAll]
  | r :: rest, acc => by
    have ih := fun acc2 => CreateOrUpdateAux_eq_processAll ops rest acc2
    cases hg : ops.getScoped ⟨r.«alias», r.resourceType⟩ with
    | error appErr =>
      by_cases h404 : appErr.code = 404
      · cases hc : ops.create r with
        | error e =>
          simp [CreateOrUpdateAux, processAll, processOne, hg, h404, hc]
        | ok createdId =>
          rw [show CreateOrUpdateAux ops (r :: rest) acc =
              CreateOrUpdateAux ops rest (acc ++ [createdId]) by
            conv_lhs => rw [CreateOrUpdateAux.eq_def]
            simp [hg, h404, hc]]
          rw [ih (acc ++ [createdId])]
          rw [show processAll ops (r :: rest) =
              match processAll ops rest with
              | .error e => .error e
              | .ok ids => .ok (createdId :: ids) by
            conv_lhs => rw [processAll.eq_def]
            simp [processOne, hg, h404, hc]]
          cases processAll ops rest <;> simp
      · simp [CreateOrUpdateAux, processAll, processOne, hg, h404]
    | ok existingResource =>
      cases hu : ops.update existingResource.id r with
      | error e => simp [CreateOrUpdateAux, processAll, processOne, hg, hu]
      | ok updatedId =>
        rw [show CreateOrUpdateAux ops (r :: rest) acc =
            CreateOrUpdateAux ops rest (acc ++ [updatedId]) by
          conv_lhs => rw [CreateOrUpdateAux.eq_def]
          simp [hg, hu]]
        rw [ih (acc ++ [updatedId])]
        rw [show processAll ops (r :: rest) =
            match processAll ops rest with
            | .error e => .error e
            | .ok ids => .ok (updatedId :: ids) by
          conv_lhs => rw [processAll.eq_def]
          simp [processOne, hg, hu]]
        cases processAll ops rest <;> simp

theorem processAll_ok_length (ops : FasitOps) :
    ∀ (resources : List ExposedResource) (ids : List Nat),
    processAll ops resources = .ok ids → ids.length = resources.length
  | [], ids, h => by cases h; rfl
  | r :: rest, ids, h => by
    unfold processAll at h
    cases h1 : processOne ops r with
    | error e => rw [h1] at h; cases h
    | ok id =>
      rw [h1] at h
      cases h2 : processAll ops rest with
      | error e => rw [h2] at h; cases h
      | ok ids2 =>
        rw [h2] at h
        cases h
        simp [processAll_ok_length ops rest ids2 h2]

/-- C6: the batch publish walks the exposed declarations in order; each
step looks the declaration up by alias+type, creates on a 404, otherwise
updates the existing resource as a full overwrite, and either path yields
one registry-assigned id; the first failing create or update — or any
non-404 lookup failure — aborts the whole batch with an error carrying no
ids.  Formally the accumulator loop equals the left-to-right sequencing of
the isolated step, and a successful batch has exactly one id per
declaration. -/
theorem C6_createOrUpdateFasitResources_batch :
    (∀ (ops : FasitOps) (resources : List ExposedResource),
      CreateOrUpdateFasitResources ops resources = processAll ops resources) ∧
    (∀ (ops : FasitOps) (resources : List ExposedResource) (ids : List Nat),
      CreateOrUpdateFasitResources ops resources = .ok ids →
      ids.length = resources.length) := by
  have key : ∀ (ops : FasitOps) (resources : List ExposedResource),
      CreateOrUpdateFasitResources ops resources = processAll ops resources := by
    intro ops resources
    rw [CreateOrUpdateFasitResources, CreateOrUpdateAux_eq_processAll]
    cases processAll ops resources <;> simp
  exact ⟨key, fun ops resources ids h =>
    processAll_ok_length ops resources ids ((key ops resources) ▸ h)⟩

/-- Registry oracle for the C6 witness: every lookup misses (404) and
every create returns id 42. -/
def witnessOps : FasitOps :=
  { getScoped := fun _ => .error ⟨str "Resource not found in Fasit", 404⟩
    create := fun _ => .ok 42
    update := fun _ _ => .ok 7 }

/-- Exposed declaration for the C6 witness. -/
def witnessExposed : ExposedResource :=
  { «alias» := str "myservice", resourceType := str "restservice", path := str "/api" }

/-- Witness for C6: a two-declaration batch against the 404-then-create
oracle publishes exactly two ids. -/
theorem C6_createOrUpdateFasitResources_batch_witness :
    ([42, 42] : List Nat).length = [witnessExposed, witnessExposed].length :=
  C6_createOrUpdateFasitResources_batch.2 witnessOps [witnessExposed, witnessExposed]
    [42, 42] (by decide)

end Fasit

namespace Fasit

/-- One child of the load-balancer-config JSON array: the optional
properties.url and properties.contextRoots strings (a missing contextRoots
reads as the Go zero value ""). -/
structure LbConfig where
  url : Option Str := none
  contextRoots : Option Str := none
deriving DecidableEq

/-- Embedding of parseLoadBalancerConfig (fasit.go lines 501-529) over the
parsed JSON children: zero children yield (nil, nil); children without a
url are skipped with a warning; if every child was skipped the function
errors; otherwise the host ↦ context-root map is returned. -/
def parseLoadBalancerConfig (children : List LbConfig) : Except Str (List (Str × Str)) :=
  if children.isEmpty then .ok []
  else
    let ingresses := children.foldl (fun acc c =>
      match c.url with
      | none => acc
      | some host => mapAssign acc host (c.contextRoots.getD [])) []
    if ingresses.isEmpty then .error (str "no loadbalancer config found")
    else .ok ingresses

/-- Embedding of getLoadBalancerConfig (fasit.go lines 123-154).
`buildReqErr` is buildRequest's error, never checked by the source and nil
in normal operation; `doReq` is doRequest's outcome.  Source line 132
returns `err` — the stale buildRequest error — instead of `appErr` when
doRequest fails, so a transport failure after a successful buildRequest
yields `.ok none`: no resource and no error. -/
def getLoadBalancerConfig (buildReqErr : Option Str)
    (doReq : Except AppError (List LbConfig)) : Except Str (Option NaisResource) :=
  match doReq with
  | .error _ =>
    match buildReqErr with
    | some e => .error e
    | none => .ok none
  | .ok children =>
    match parseLoadBalancerConfig children with
    | .error e => .error e
    | .ok ingresses =>
      if ingresses.isEmpty then .ok none
      else .ok (some
        { name := [], resourceType := str "LoadBalancerConfig",
          ingresses := ingresses })

/-- UsedResource of manifest.go: a dependency the application consumes. -/
structure UsedResource where
  «alias» : Str := []
  resourceType : Str := []
  propertyMap : List (Str × Str) := []
deriving DecidableEq

/-- Embedding of GetScopedResources (fasit.go lines 93-102): sequential
per-request resolution, aborting the whole batch on the first failure. -/
def GetScopedResources (getScoped : ResourceRequest → Except Str NaisResource) :
    List ResourceRequest → Except Str (List NaisResource)
  | [] => .ok []
  | req :: rest =>
    match getScoped req with
    | .error e => .error e
    | .ok res =>
      match GetScopedResources getScoped rest with
      | .error e => .error e
      | .ok out => .ok (res :: out)

/-- Embedding of fetchFasitResources (fasit.go lines 196-217): resolve
every used alias+type, then consult the load-balancer-config lookup exactly
once for the whole application — its result `lb` is a single value, not
indexed by alias; a non-nil resource is appended, and an lb error is
logged and swallowed (source lines 211-212). -/
def fetchFasitResources (getScoped : ResourceRequest → Except Str NaisResource)
    (lb : Except Str (Option NaisResource)) (used : List UsedResource) :
    Except Str (List NaisResource) :=
  match GetScopedResources getScoped
      (used.map (fun u => ResourceRequest.mk u.«alias» u.resourceType)) with
  | .error e => .error e
  | .ok rs =>
    match lb with
    | .ok (some r) => .ok (rs ++ [r])
    | .ok none => .ok rs
    | .error _ => .ok rs

/-- C7 (amended): the LoadBalancerConfig lookup happens once per
application and its absence (no config in the registry) yields no resource
and no error — but a failure contacting the registry during the lookup is
swallowed rather than re-raised: getLoadBalancerConfig returns `.ok none`
(line 132 returns the stale nil buildRequest error instead of the
doRequest error), and even an error result from getLoadBalancerConfig is
logged and dropped by fetchFasitResources, which then behaves exactly as
if no config existed. -/
theorem C7_loadbalancer_error_swallowed :
    (∀ appErr : AppError, getLoadBalancerConfig none (.error appErr) = .ok none) ∧
    (getLoadBalancerConfig none (.ok []) = .ok none) ∧
    (∀ (getScoped : ResourceRequest → Except Str NaisResource)
      (used : List UsedResource) (e : Str),
      fetchFasitResources getScoped (.error e) used =
        fetchFasitResources getScoped (.ok none) used) ∧
    (∀ (getScoped : ResourceRequest → Except Str NaisResource)
      (used : List UsedResource) (rs : List NaisResource) (e : Str),
      GetScopedResources getScoped
        (used.map (fun u => ResourceRequest.mk u.«alias» u.resourceType)) = .ok rs →
      fetchFasitResources getScoped (.error e) used = .ok rs) := by
  refine ⟨fun appErr => rfl, by decide, ?_, ?_⟩
  · intro getScoped used e
    unfold fetchFasitResources
    cases GetScopedResources getScoped
      (used.map (fun u => ResourceRequest.mk u.«alias» u.resourceType)) <;> rfl
  · intro getScoped used rs e h
    unfold fetchFasitResources
    rw [h]

/-- Witness for C7: one used resource resolves, the lb lookup fails with a
transport error, and the batch still succeeds with just the resolved
resource. -/
theorem C7_loadbalancer_error_swallowed_witness :
    fetchFasitResources (fun _ => .ok { name := str "r1" })
      (.error (str "Error contacting fasit"))
      [{ «alias» := str "r1", resourceType := str "db" }] =
      .ok [{ name := str "r1" }] :=
  C7_loadbalancer_error_swallowed.2.2.2 (fun _ => .ok { name := str "r1" })
    [{ «alias» := str "r1", resourceType := str "db" }]
    [{ name := str "r1" }] (str "Error contacting fasit") (by decide)

/-- Counterexample to C7 as stated: when contacting the registry fails
during the LoadBalancerConfig lookup (doRequest returns a 500 AppError
while buildRequest succeeded), getLoadBalancerConfig returns no resource
and no error — the failure is silently treated as absence, not annotated
and re-raised. -/
theorem C7_loadbalancer_error_swallowed_counterexample :
    getLoadBalancerConfig none (.error ⟨str "Error contacting fasit", 500⟩) = .ok none := by
  decide

end Fasit

namespace Fasit

/-- Go strings.EqualFold restricted to ASCII case folding. -/
def equalFold (a b : Str) : Bool := a.map toLowerCode == b.map toLowerCode

/-- Properties of the registry resource payload (fasit.go lines 52-58). -/
structure Properties where
  url : Str := []
  endpointUrl : Str := []
  wsdlUrl : Str := []
  username : Str := []
  description : Str := []
deriving DecidableEq

/-- Scope of the registry resource payload (fasit.go lines 60-63). -/
structure Scope where
  environment : Str := []
  zone : Str := []
deriving DecidableEq

/-- ResourcePayload of fasit.go (lines 21-26); the Go zero value is the
record with every field empty. -/
structure ResourcePayload where
  «alias» : Str := []
  properties : Properties := {}
  scope : Scope := {}
  type : Str := []
deriving DecidableEq

/-- Embedding of generateScope (fasit.go lines 620-630): all-zones
resources scope to the environment only. -/
def generateScope (resource : ExposedResource) (environment zone : Str) : Scope :=
  if resource.allZones then { environment := environment }
  else { environment := environment, zone := zone }

/-- Embedding of buildResourcePayload (fasit.go lines 646-673): a
case-insensitive match on restservice or WebserviceEndpoint produces a
populated payload; every other resource type falls through to the zero
value `ResourcePayload{}`. -/
def buildResourcePayload (resource : ExposedResource)
    (fasitEnvironment zone hostname : Str) : ResourcePayload :=
  if equalFold (str "restservice") resource.resourceType then
    { type := str "RestService"
      «alias» := resource.«alias»
      properties :=
        { url := str "https://" ++ hostname ++ resource.path
          description := resource.description }
      scope := generateScope resource fasitEnvironment zone }
  else if equalFold (str "WebserviceEndpoint") resource.resourceType then
    { type := str "WebserviceEndpoint"
      «alias» := resource.«alias»
      properties :=
        { endpointUrl := str "https://" ++ hostname ++ resource.path
          wsdlUrl := str "http://maven.adeo.no/nexus/service/local/artifact/maven/redirect?r=m2internal&g=" ++
            resource.wsdlGroupId ++ str "&a=" ++ resource.wsdlArtifactId ++
            str "&v=" ++ resource.wsdlVersion ++ str "&e=zip"
          description := resource.description }
      scope := generateScope resource fasitEnvironment zone }
  else {}

/-- Embedding of createResource (fasit.go lines 314-353): marshal the
payload — total for this payload type — and POST it through the HTTP
oracle `post`; no error branch before the POST depends on the payload
content, and the registry-assigned id is parsed from the response. -/
def createResource (post : ResourcePayload → Except Str Nat)
    (resource : ExposedResource) (environment zone hostname : Str) : Except Str Nat :=
  post (buildResourcePayload resource environment zone hostname)

/-- C10: buildResourcePayload populates the payload only for resource
types equal, case-insensitively, to restservice or WebserviceEndpoint; any
other declared type yields the zero-value payload — no alias, no type, no
scope — and the create of that exposed resource still proceeds to the
registry POST with no local error. -/
theorem C10_buildResourcePayload_known_types :
    (∀ (resource : ExposedResource) (env zone hostname : Str),
      equalFold (str "restservice") resource.resourceType = false →
      equalFold (str "WebserviceEndpoint") resource.resourceType = false →
      buildResourcePayload resource env zone hostname = {} ∧
      ∀ post : ResourcePayload → Except Str Nat,
        createResource post resource env zone hostname = post {}) ∧
    (∀ (resource : ExposedResource) (env zone hostname : Str),
      equalFold (str "restservice") resource.resourceType = true →
      (buildResourcePayload resource env zone hostname).type = str "RestService" ∧
      (buildResourcePayload resource env zone hostname).«alias» = resource.«alias») ∧
    (∀ (resource : ExposedResource) (env zone hostname : Str),
      equalFold (str "restservice") resource.resourceType = false →
      equalFold (str "WebserviceEndpoint") resource.resourceType = true →
      (buildResourcePayload resource env zone hostname).type = str "WebserviceEndpoint" ∧
      (buildResourcePayload resource env zone hostname).«alias» = resource.«alias») := by
  refine ⟨?_, ?_, ?_⟩
  · intro resource env zone hostname h1 h2
    constructor
    · simp [buildResourcePayload, h1, h2]
    · intro post
      simp [createResource, buildResourcePayload, h1, h2]
  · intro resource env zone hostname h1
    constructor <;> simp [buildResourcePayload, h1]
  · intro resource env zone hostname h1 h2
    constructor <;> simp [buildResourcePayload, h1, h2]

/-- Witness for C10: a Queue-typed exposed resource produces the zero
payload, and its create still performs the POST, returning the oracle's
id. -/
theorem C10_buildResourcePayload_known_types_witness :
    buildResourcePayload { «alias» := str "q1", resourceType := str "Queue" }
      (str "t1") (str "fss") (str "host.example") = {} ∧
    createResource (fun _ => .ok 3)
      { «alias» := str "q1", resourceType := str "Queue" }
      (str "t1") (str "fss") (str "host.example") = .ok 3 := by
  have h := C10_buildResourcePayload_known_types.1
    { «alias» := str "q1", resourceType := str "Queue" }
    (str "t1") (str "fss") (str "host.example") (by decide) (by decide)
  exact ⟨h.1, h.2 (fun _ => .ok 3)⟩

end Fasit

/-- Replicas of manifest.go: replica bounds plus CPU-threshold autoscaling
policy. -/
structure Replicas where
  min : Int := 0
  max : Int := 0
  cpuThresholdPercentage : Int := 0
deriving DecidableEq

/-- ResourceList of manifest.go: CPU and memory quantity strings. -/
structure ResourceList where
  cpu : Str := []
  memory : Str := []
deriving DecidableEq

/-- ResourceRequirements of manifest.go. -/
structure ResourceRequirements where
  limits : ResourceList := {}
  requests : ResourceList := {}
deriving DecidableEq

/-- FasitResources of manifest.go: declared used and exposed resources. -/
structure FasitResourcesCfg where
  used : List Fasit.UsedResource := []
  exposed : List Fasit.ExposedResource := []
deriving DecidableEq

/-- NaisManifest of manifest.go, restricted to the fields the validators
consult. -/
structure NaisManifest where
  team : Str := []
  image : Str := []
  port : Int := 0
  replicas : Replicas := {}
  resources : ResourceRequirements := {}
  fasitResources : FasitResourcesCfg := {}
deriving DecidableEq

/-- ValidationError of manifest.go: message plus field map. -/
structure ValidationError where
  errorMessage : Str
  fields : List (Str × Str)
deriving DecidableEq

/-- Go strconv.Itoa. -/
def intToStr (i : Int) : Str := str (toString i)

/-- Go strings.LastIndex over code points: ending position of the last
occurrence, or -1. -/
def lastIndexOfAux (c : Nat) : Str → Int → Int → Int
  | [], _, best => best
  | x :: rest, i, best => lastIndexOfAux c rest (i + 1) (if x = c then i else best)

/-- Index of the last occurrence of `c` in `s`, or -1. -/
def lastIndexOf (c : Nat) (s : Str) : Int := lastIndexOfAux c s 0 (-1)

/-- Embedding of validateImage (manifest.go lines 249-257): an image
reference whose last ':' comes after its last '/' carries a tag. -/
def validateImage (m : NaisManifest) : Option ValidationError :=
  if lastIndexOf 58 m.image > lastIndexOf 47 m.image then
    some ⟨str "Image cannot contain tag", [(str "Image", m.image)]⟩
  else none

/-- Embedding of createQuanitityValidationError (manifest.go lines
259-265), spelling faithful to the source. -/
def createQuanitityValidationError (key value errmsg : Str) : ValidationError :=
  ⟨str "not a valid quantity. " ++ errmsg, [(key, value)]⟩

/-- Embedding of validateRequestMemoryQuantity (manifest.go lines 267-273);
`parseQ` is the external k8s quantity parser, returning an error message
for an invalid quantity. -/
def validateRequestMemoryQuantity (parseQ : Str → Option Str) (m : NaisManifest) :
    Option ValidationError :=
  match parseQ m.resources.requests.memory with
  | some e => some (createQuanitityValidationError (str "Resources.Requests.Memory")
      m.resources.requests.memory e)
  | none => none

/-- Embedding of validateLimitsMemoryQuantity (manifest.go lines 275-281). -/
def validateLimitsMemoryQuantity (parseQ : Str → Option Str) (m : NaisManifest) :
    Option ValidationError :=
  match parseQ m.resources.limits.memory with
  | some e => some (createQuanitityValidationError (str "Resources.Limits.Memory")
      m.resources.limits.memory e)
  | none => none

/-- Embedding of validateRequestCpuQuantity (manifest.go lines 283-289);
the field key "Resources.Request.Cpu" reproduces the source spelling. -/
def validateRequestCpuQuantity (parseQ : Str → Option Str) (m : NaisManifest) :
    Option ValidationError :=
  match parseQ m.resources.requests.cpu with
  | some e => some (createQuanitityValidationError (str "Resources.Request.Cpu")
      m.resources.requests.cpu e)
  | none => none

/-- Embedding of validateLimitsCpuQuantity (manifest.go lines 291-297). -/
def validateLimitsCpuQuantity (parseQ : Str → Option Str) (m : NaisManifest) :
    Option ValidationError :=
  match parseQ m.resources.limits.cpu with
  | some e => some (createQuanitityValidationError (str "Resources.Limits.Cpu")
      m.resources.limits.cpu e)
  | none => none

/-- Embedding of validateCpuThreshold (manifest.go lines 299-310): a
threshold below 10 or above 90 is a field-level error. -/
def validateCpuThreshold (m : NaisManifest) : Option ValidationError :=
  if m.replicas.cpuThresholdPercentage < 10 ∨ m.replicas.cpuThresholdPercentage > 90 then
    some ⟨str "CpuThreshold must be between 10 and 90.",
      [(str "Replicas.CpuThreshold", intToStr m.replicas.cpuThresholdPercentage)]⟩
  else none

/-- Embedding of validateMinIsSmallerThanMax (manifest.go lines 312-323). -/
def validateMinIsSmallerThanMax (m : NaisManifest) : Option ValidationError :=
  if m.replicas.min > m.replicas.max then
    some ⟨str "Replicas.Min is larger than Replicas.Max.",
      [(str "Replicas.Max", intToStr m.replicas.max),
       (str "Replicas.Min", intToStr m.replicas.min)]⟩
  else none

/-- Embedding of validateReplicasMin (manifest.go lines 325-336). -/
def validateReplicasMin (m : NaisManifest) : Option ValidationError :=
  if m.replicas.min = 0 then
    some ⟨str "Replicas.Min is not set", [(str "Replicas.Min", intToStr m.replicas.min)]⟩
  else none

/-- Embedding of validateReplicasMax (manifest.go lines 338-348). -/
def validateReplicasMax (m : NaisManifest) : Option ValidationError :=
  if m.replicas.max = 0 then
    some ⟨str "Replicas.Max is not set", [(str "Replicas.Max", intToStr m.replicas.max)]⟩
  else none

/-- Embedding of validateResources (manifest.go lines 229-247): every
declared exposed or used resource needs a non-empty alias and type. -/
def validateResources (m : NaisManifest) : Option ValidationError :=
  match m.fasitResources.exposed.find?
      (fun r => r.resourceType.isEmpty || r.«alias».isEmpty) with
  | some r => some ⟨str "Alias and ResourceType must be specified",
      [(str "Alias", r.«alias»)]⟩
  | none =>
    match m.fasitResources.used.find?
        (fun r => r.resourceType.isEmpty || r.«alias».isEmpty) with
    | some r => some ⟨str "Alias and ResourceType must be specified",
        [(str "Alias", r.«alias»)]⟩
    | none => none

/-- Embedding of ValidateManifest (manifest.go lines 204-227): run the
eleven validators in source order and collect every error.  `parseQ` is
the external quantity parser and `validateAlertRules` the alert-rule
validator, whose source lies outside src/. -/
def ValidateManifest (parseQ : Str → Option Str)
    (validateAlertRules : NaisManifest → Option ValidationError)
    (m : NaisManifest) : List ValidationError :=
  [validateImage m,
   validateReplicasMax m,
   validateReplicasMin m,
   validateMinIsSmallerThanMax m,
   validateCpuThreshold m,
   validateRequestMemoryQuantity parseQ m,
   validateLimitsMemoryQuantity parseQ m,
   validateRequestCpuQuantity parseQ m,
   validateLimitsCpuQuantity parseQ m,
   validateResources m,
   validateAlertRules m].filterMap id

/-- Failure modes of GenerateManifest: manifest download/merge failure, or
validation errors. -/
inductive GenerateManifestError where
  | download (e : Str)
  | validation (errs : List ValidationError)
deriving DecidableEq

/-- Embedding of GenerateManifest (manifest.go lines 119-140): download
(oracle `downloaded`), merge defaults (oracle `addDefaults`), then
validate; any validation error rejects the manifest before any resource
builder can run. -/
def GenerateManifest (parseQ : Str → Option Str)
    (validateAlertRules : NaisManifest → Option ValidationError)
    (downloaded : Except Str NaisManifest)
    (addDefaults : NaisManifest → NaisManifest) :
    Except GenerateManifestError NaisManifest :=
  match downloaded with
  | .error e => .error (.download e)
  | .ok m0 =>
    let m := addDefaults m0
    let errs := ValidateManifest parseQ validateAlertRules m
    if errs.isEmpty then .ok m else .error (.validation errs)

example : intToStr 2 = str "2" := by decide
example : intToStr (-3) = str "-3" := by decide

/-- C8: manifest validation rejects Replicas.Min > Replicas.Max and a
CpuThresholdPercentage outside [10, 90] with field-level errors carried in
ValidateManifest's result, whatever the external quantity and alert
validators do; and GenerateManifest turns any such validation failure into
an error — rejecting the manifest before any builder can run — so a
manifest with min 2 and max 1 never reaches the autoscaler builder. -/
theorem C8_manifest_validation :
    (∀ (parseQ : Str → Option Str) (av : NaisManifest → Option ValidationError)
      (m : NaisManifest), m.replicas.min > m.replicas.max →
      validateMinIsSmallerThanMax m =
        some ⟨str "Replicas.Min is larger than Replicas.Max.",
          [(str "Replicas.Max", intToStr m.replicas.max),
           (str "Replicas.Min", intToStr m.replicas.min)]⟩ ∧
      ∃ err, validateMinIsSmallerThanMax m = some err ∧
        err ∈ ValidateManifest parseQ av m ∧
        (str "Replicas.Min") ∈ err.fields.map Prod.fst) ∧
    (∀ (parseQ : Str → Option Str) (av : NaisManifest → Option ValidationError)
      (m : NaisManifest),
      m.replicas.cpuThresholdPercentage < 10 ∨ m.replicas.cpuThresholdPercentage > 90 →
      ∃ err, validateCpuThreshold m = some err ∧
        err ∈ ValidateManifest parseQ av m ∧
        (str "Replicas.CpuThreshold") ∈ err.fields.map Prod.fst) ∧
    (∀ (parseQ : Str → Option Str) (av : NaisManifest → Option ValidationError)
      (dl : Except Str NaisManifest) (ad : NaisManifest → NaisManifest) (m : NaisManifest),
      dl = .ok m → (ad m).replicas.min > (ad m).replicas.max →
      GenerateManifest parseQ av dl ad =
        .error (.validation (ValidateManifest parseQ av (ad m))) ∧
      ValidateManifest parseQ av (ad m) ≠ []) := by
  have hminmem : ∀ (parseQ : Str → Option Str) (av : NaisManifest → Option ValidationError)
      (m : NaisManifest), m.replicas.min > m.replicas.max →
      validateMinIsSmallerThanMax m =
        some ⟨str "Replicas.Min is larger than Replicas.Max.",
          [(str "Replicas.Max", intToStr m.replicas.max),
           (str "Replicas.Min", intToStr m.replicas.min)]⟩ ∧
      (⟨str "Replicas.Min is larger than Replicas.Max.",
          [(str "Replicas.Max", intToStr m.replicas.max),
           (str "Replicas.Min", intToStr m.replicas.min)]⟩ : ValidationError) ∈
        ValidateManifest parseQ av m := by
    intro parseQ av m h
    have heq : validateMinIsSmallerThanMax m =
        some ⟨str "Replicas.Min is larger than Replicas.Max.",
          [(str "Replicas.Max", intToStr m.replicas.max),
           (str "Replicas.Min", intToStr m.replicas.min)]⟩ := by
      simp [validateMinIsSmallerThanMax, h]
    refine ⟨heq, List.mem_filterMap.mpr ⟨validateMinIsSmallerThanMax m, by simp, by rw [heq]; rfl⟩⟩
  refine ⟨?_, ?_, ?_⟩
  · intro parseQ av m h
    obtain ⟨heq, hmem⟩ := hminmem parseQ av m h
    exact ⟨heq, _, heq, hmem, by simp⟩
  · intro parseQ av m h
    have heq : validateCpuThreshold m =
        some ⟨str "CpuThreshold must be between 10 and 90.",
          [(str "Replicas.CpuThreshold", intToStr m.replicas.cpuThresholdPercentage)]⟩ := by
      simp [validateCpuThreshold, h]
    refine ⟨_, heq, List.mem_filterMap.mpr ⟨validateCpuThreshold m, by simp, by rw [heq]; rfl⟩, by simp⟩
  · intro parseQ av dl ad m hdl h
    subst hdl
    obtain ⟨heq, hmem⟩ := hminmem parseQ av (ad m) h
    have hne : ValidateManifest parseQ av (ad m) ≠ [] := List.ne_nil_of_mem hmem
    constructor
    · simp only [GenerateManifest]
      rw [if_neg (by simpa [List.isEmpty_iff] using hne)]
    · exact hne

/-- Manifest of the C8 witness: replica bounds min 2, max 1. -/
def manifestMin2Max1 : NaisManifest :=
  { replicas := { min := 2, max := 1, cpuThresholdPercentage := 50 } }

/-- Witness for C8: the min-2/max-1 manifest is rejected by
GenerateManifest with a non-empty validation error list. -/
theorem C8_manifest_validation_witness :
    GenerateManifest (fun _ => none) (fun _ => none) (.ok manifestMin2Max1) id =
      .error (.validation
        (ValidateManifest (fun _ => none) (fun _ => none) manifestMin2Max1)) ∧
    ValidateManifest (fun _ => none) (fun _ => none) manifestMin2Max1 ≠ [] :=
  C8_manifest_validation.2.2 (fun _ => none) (fun _ => none) (.ok manifestMin2Max1) id
    manifestMin2Max1 rfl (by decide)
